import Mathlib

/-!
Shallow embedding of the document-assembly engine of `src/utils/conversionUtils.ts`
(the pdf-wizard-instant repository): the five conversion strategies
(`convertImagesToPDF`, `convertTextToPDF`, `mergePDFs`, `splitPDF`,
`convertWordToPDF`) and the dispatcher `convertByFeature`.

Modelling conventions:
* Browser / library side effects (decoding an `Image`, `file.text()`,
  `PDFDocument.load`, the raw-byte word extraction) are environment effects;
  each `UploadedFile` facet records the outcome the environment would hand the
  strategy (`none` = the throwing / `onerror` path, which the source catches or,
  in `splitPDF`, lets propagate).
* JavaScript numbers are modelled as `ℚ` (the arithmetic the source performs —
  division, multiplication, comparison — is exact on the rationals involved).
* A jsPDF document is its list of pages, each a list of drawing commands; a
  pdf-lib document is its list of pages.  jsPDF starts with one blank page,
  pdf-lib's `PDFDocument.create()` with none.
* `onProgress` callbacks are collected into a trace list, in call order.
* jsPDF's `splitTextToSize` line wrapper is internal library code; the
  strategies are parameterised by the wrapping function `wrap`.
-/

namespace PdfWizard

/-- Pixel dimensions of a successfully decoded raster (`img.width`, `img.height`). -/
structure ImgData where
  width : ℚ
  height : ℚ
deriving DecidableEq

/-- One page of a parsed source PDF.  pdf-lib's `copyPages` copies the page
object wholesale, so a page is a record of its size and content, copied as a
value. -/
structure PdfPage where
  width : ℚ
  height : ℚ
  content : String
deriving DecidableEq

/-- One user-supplied file (`UploadedFile` of the source), together with the
outcome of each environment-side read the strategies may perform on it. -/
structure UploadedFile where
  name : String
  decodedImage : Option ImgData
  textContent : Option String
  extractedWord : Option String
  parsedPdf : Option (List PdfPage)
deriving DecidableEq

/-- One jsPDF drawing command: `addImage` placement, `text` (with the font size
in effect), or `line`. -/
inductive DrawCmd where
  | image (x y w h : ℚ)
  | text (s : String) (x y size : ℚ)
  | line (x1 y1 x2 y2 : ℚ)
deriving DecidableEq

/-- jsPDF document state: `new jsPDF()` starts with one blank current page;
`addPage` pushes the current page and opens a fresh one; drawing appends to the
current page. -/
structure JsPdf where
  donePages : List (List DrawCmd)
  cur : List DrawCmd
deriving DecidableEq

def JsPdf.new : JsPdf := ⟨[], []⟩

def JsPdf.addPage (d : JsPdf) : JsPdf := ⟨d.donePages ++ [d.cur], []⟩

def JsPdf.draw (d : JsPdf) (c : DrawCmd) : JsPdf := ⟨d.donePages, d.cur ++ [c]⟩

/-- The ordered page list of the serialized document (`pdf.output`). -/
def JsPdf.output (d : JsPdf) : List (List DrawCmd) := d.donePages ++ [d.cur]

/-- Lines 42-53: the aspect-fit (finalWidth, finalHeight) pair.  The branch
condition is the source's `imgAspectRatio > pageAspectRatio`. -/
def fitWH (sw sh pw ph m : ℚ) : ℚ × ℚ :=
  if (pw - 2 * m) / (ph - 2 * m) < sw / sh then
    (pw - 2 * m, (pw - 2 * m) / (sw / sh))
  else
    ((ph - 2 * m) * (sw / sh), ph - 2 * m)

/-- The placement rectangle computed for one image (the spec's LayoutResult). -/
structure Layout where
  finalWidth : ℚ
  finalHeight : ℚ
  x : ℚ
  y : ℚ
deriving DecidableEq

/-- Lines 42-56: size and centered origin of one image placement. -/
def fit (sw sh pw ph m : ℚ) : Layout :=
  { finalWidth := (fitWH sw sh pw ph m).1
    finalHeight := (fitWH sw sh pw ph m).2
    x := (pw - (fitWH sw sh pw ph m).1) / 2
    y := (ph - (fitWH sw sh pw ph m).2) / 2 }

/-- Lines 24-78: the per-item loop of `convertImagesToPDF`.  `n` is
`files.length` at entry, `i` the loop index (used only for the progress
fraction).  A `none` decode is the caught `onerror` path: the item is skipped.
The second component is the list of `onProgress` arguments, in call order. -/
def imagesLoop (n : ℕ) (pw ph m : ℚ) :
    List UploadedFile → ℕ → Bool → JsPdf → JsPdf × List ℚ
  | [], _, _, pdf => (pdf, [])
  | f :: rest, i, isFirstPage, pdf =>
    let p : ℚ := (i : ℚ) / (n : ℚ) * 90
    match f.decodedImage with
    | none =>
      let r := imagesLoop n pw ph m rest (i + 1) isFirstPage pdf
      (r.1, p :: r.2)
    | some img =>
      let L := fit img.width img.height pw ph m
      let pdf1 := if isFirstPage then pdf else pdf.addPage
      let pdf2 := (pdf1.draw (DrawCmd.image L.x L.y L.finalWidth L.finalHeight)).draw
          (DrawCmd.text f.name m (ph - 5) 8)
      let r := imagesLoop n pw ph m rest (i + 1) false pdf2
      (r.1, p :: r.2)

/-- Lines 13-85: `convertImagesToPDF` on an A4 portrait page (210 x 297 mm),
margin 10; emits a final `onProgress(100)` after the loop. -/
def convertImagesToPDF (files : List UploadedFile) : JsPdf × List ℚ :=
  let r := imagesLoop files.length 210 297 10 files 0 true JsPdf.new
  (r.1, r.2 ++ [100])

/-- Lines 130-137 (and 282-289): draw the wrapped lines, opening a new page
whenever the next line would cross the bottom margin. -/
def renderLines (ph m lineHeight size : ℚ) : List String → ℚ → JsPdf → JsPdf
  | [], _, pdf => pdf
  | line :: rest, y, pdf =>
    if ph - m < y + lineHeight then
      renderLines ph m lineHeight size rest (m + lineHeight)
        ((pdf.addPage).draw (DrawCmd.text line m m size))
    else
      renderLines ph m lineHeight size rest (y + lineHeight)
        (pdf.draw (DrawCmd.text line m y size))

/-- Lines 100-142: the per-item loop of `convertTextToPDF` (title at size 16,
separator line, body at size 10 from y = margin + 25). -/
def textLoop (wrap : String → List String) (n : ℕ) (pw ph m lineHeight : ℚ) :
    List UploadedFile → ℕ → Bool → JsPdf → JsPdf × List ℚ
  | [], _, _, pdf => (pdf, [])
  | f :: rest, i, isFirstPage, pdf =>
    let p : ℚ := (i : ℚ) / (n : ℚ) * 90
    match f.textContent with
    | none =>
      let r := textLoop wrap n pw ph m lineHeight rest (i + 1) isFirstPage pdf
      (r.1, p :: r.2)
    | some text =>
      let pdf1 := if isFirstPage then pdf else pdf.addPage
      let pdf2 := (pdf1.draw (DrawCmd.text f.name m (m + 10) 16)).draw
          (DrawCmd.line m (m + 15) (pw - m) (m + 15))
      let pdf3 := renderLines ph m lineHeight 10 (wrap text) (m + 25) pdf2
      let r := textLoop wrap n pw ph m lineHeight rest (i + 1) false pdf3
      (r.1, p :: r.2)

/-- Lines 87-149: `convertTextToPDF`, margin 20, line height 6.  The whole text
is handed to the wrapper: no length cap is applied. -/
def convertTextToPDF (wrap : String → List String) (files : List UploadedFile) :
    JsPdf × List ℚ :=
  let r := textLoop wrap files.length 210 297 20 6 files 0 true JsPdf.new
  (r.1, r.2 ++ [100])

/-- Lines 239-294: the per-item loop of `convertWordToPDF`.  `extractedWord`
is the `text` variable of lines 248-260 (best-effort extraction); line 279
wraps `text.substring(0, 5000)`. -/
def wordLoop (wrap : String → List String) (n : ℕ) (pw ph m lineHeight : ℚ) :
    List UploadedFile → ℕ → Bool → JsPdf → JsPdf × List ℚ
  | [], _, _, pdf => (pdf, [])
  | f :: rest, i, isFirstPage, pdf =>
    let p : ℚ := (i : ℚ) / (n : ℚ) * 90
    match f.extractedWord with
    | none =>
      let r := wordLoop wrap n pw ph m lineHeight rest (i + 1) isFirstPage pdf
      (r.1, p :: r.2)
    | some text =>
      let pdf1 := if isFirstPage then pdf else pdf.addPage
      let pdf2 := (pdf1.draw (DrawCmd.text f.name m (m + 10) 16)).draw
          (DrawCmd.line m (m + 15) (pw - m) (m + 15))
      let pdf3 := renderLines ph m lineHeight 10 (wrap (text.take 5000)) (m + 25) pdf2
      let r := wordLoop wrap n pw ph m lineHeight rest (i + 1) false pdf3
      (r.1, p :: r.2)

/-- Lines 226-301: `convertWordToPDF`, margin 20, line height 6. -/
def convertWordToPDF (wrap : String → List String) (files : List UploadedFile) :
    JsPdf × List ℚ :=
  let r := wordLoop wrap files.length 210 297 20 6 files 0 true JsPdf.new
  (r.1, r.2 ++ [100])

/-- Lines 157-173: the per-item loop of `mergePDFs`.  A failed
`PDFDocument.load` is caught: the item contributes no pages. -/
def mergeLoop (n : ℕ) : List UploadedFile → ℕ → List PdfPage × List ℚ
  | [], _ => ([], [])
  | f :: rest, i =>
    let r := mergeLoop n rest (i + 1)
    match f.parsedPdf with
    | none => (r.1, ((i : ℚ) / (n : ℚ) * 90) :: r.2)
    | some pages => (pages ++ r.1, ((i : ℚ) / (n : ℚ) * 90) :: r.2)

/-- Lines 151-181: `mergePDFs`.  The result is the page list of the output
`PDFDocument` (created empty) after the loop. -/
def mergePDFs (files : List UploadedFile) : List PdfPage × List ℚ :=
  let r := mergeLoop files.length files 0
  (r.1, r.2 ++ [100])

/-- The stamp drawn on page `i` (0-based) of the split output (line 210):
the template literal of the source, with decimal rendering of the numbers. -/
def pageLabel (i n : ℕ) : String :=
  "Page " ++ Nat.repr (i + 1) ++ " of " ++ Nat.repr n

/-- A page of the split output: the copied source page plus the drawn label
and its position (x = 50, y = height - 50, size 12 in the source). -/
structure StampedPage where
  base : PdfPage
  label : String
  labelX : ℚ
  labelY : ℚ
deriving DecidableEq

/-- Lines 200-216: the per-page loop of `splitPDF`; `n` is the source page
count. -/
def splitLoop (n : ℕ) : List PdfPage → ℕ → List StampedPage × List ℚ
  | [], _ => ([], [])
  | p :: rest, i =>
    let r := splitLoop n rest (i + 1)
    (⟨p, pageLabel i n, 50, p.height - 50⟩ :: r.1, ((i : ℚ) / (n : ℚ) * 90) :: r.2)

/-- Lines 183-224: `splitPDF`.  An empty batch throws (line 188); only the
first file is read; its `PDFDocument.load` is NOT inside any try/catch, so a
parse failure propagates to the caller. -/
def splitPDF (files : List UploadedFile) : Except String (List StampedPage × List ℚ) :=
  match files with
  | [] => Except.error "No PDF file provided"
  | f :: _ =>
    match f.parsedPdf with
    | none => Except.error "Failed to load PDF"
    | some pages =>
      let r := splitLoop pages.length pages 0
      Except.ok (r.1, r.2 ++ [100])

/-- Lines 343-348: the placeholder document of the default dispatcher arm. -/
def placeholderPdf : JsPdf :=
  ((JsPdf.new.draw (DrawCmd.text "Feature Coming Soon!" 20 30 16)).draw
      (DrawCmd.text "This conversion feature is under development." 20 50 12)).draw
    (DrawCmd.text "Stay tuned for updates!" 20 70 12)

/-- The output document of one dispatcher call: a jsPDF document (images,
text, word, placeholder), a pdf-lib document (merge), or the stamped split
output. -/
inductive ConvOutput where
  | jsDoc (d : JsPdf)
  | libDoc (pages : List PdfPage)
  | splitDoc (pages : List StampedPage)
deriving DecidableEq

/-- Lines 322-356: `convertByFeature` routes by feature id; only `splitPDF`
can reject, every other arm returns normally. -/
def convertByFeature (wrap : String → List String) (featureId : String)
    (files : List UploadedFile) : Except String (ConvOutput × List ℚ) :=
  if featureId = "images-to-pdf" then
    let r := convertImagesToPDF files
    Except.ok (ConvOutput.jsDoc r.1, r.2)
  else if featureId = "text-to-pdf" then
    let r := convertTextToPDF wrap files
    Except.ok (ConvOutput.jsDoc r.1, r.2)
  else if featureId = "merge-pdfs" then
    let r := mergePDFs files
    Except.ok (ConvOutput.libDoc r.1, r.2)
  else if featureId = "split-pdf" then
    (splitPDF files).map (fun r => (ConvOutput.splitDoc r.1, r.2))
  else if featureId = "word-to-pdf" then
    let r := convertWordToPDF wrap files
    Except.ok (ConvOutput.jsDoc r.1, r.2)
  else
    Except.ok (ConvOutput.jsDoc placeholderPdf, [100])

/-- The progress value reported before item `i` of a batch of `n`. -/
def progAt (n i : ℕ) : ℚ := (i : ℚ) / (n : ℚ) * 90

/-- The progress trace every looping strategy emits for a batch (or page
count) of size `n`: `(i / n) * 90` before item `i`, then a final `100`. -/
def progressTrace (n : ℕ) : List ℚ :=
  (List.range n).map (progAt n) ++ [100]

/-- The progress contract of the spec: values in [0, 100], monotonically
non-decreasing, final value exactly 100. -/
def progressOk (l : List ℚ) : Prop :=
  (∀ x ∈ l, 0 ≤ x ∧ x ≤ 100) ∧ l.Chain' (· ≤ ·) ∧ l.getLast? = some 100

/-- The page produced for one successfully decoded image (lines 70-73): the
placed image, then the file-name caption at the footer, at font size 8. -/
def imagePage (pw ph m : ℚ) (f : UploadedFile) (img : ImgData) : List DrawCmd :=
  [DrawCmd.image (fit img.width img.height pw ph m).x (fit img.width img.height pw ph m).y
      (fit img.width img.height pw ph m).finalWidth (fit img.width img.height pw ph m).finalHeight,
   DrawCmd.text f.name m (ph - 5) 8]

/-- A degenerate line wrapper (each text is one line), used to instantiate the
wrap parameter on concrete inputs. -/
def wrapId : String → List String := fun s => [s]

/-- An upload none of whose environment-side reads succeeds: undecodable as an
image, unreadable as text, unparseable as a PDF. -/
def badFile : UploadedFile := ⟨"broken.bin", none, none, none, none⟩

/-- Concrete 1-page source PDFs and batches for witnesses. -/
def pageA1 : PdfPage := ⟨595, 842, "source A page 1"⟩

def pageB1 : PdfPage := ⟨612, 792, "source B page 1"⟩

def pdfFileA : UploadedFile := ⟨"a.pdf", none, none, none, some [pageA1]⟩

def pdfFileB : UploadedFile := ⟨"b.pdf", none, none, none, some [pageB1]⟩

def mergeBatch : List UploadedFile := [pdfFileA, pdfFileB]

def imgFileA : UploadedFile := ⟨"a.jpg", some ⟨400, 300⟩, none, none, none⟩

def imgFileB : UploadedFile := ⟨"b.jpg", some ⟨200, 500⟩, none, none, none⟩

def imgFileC : UploadedFile := ⟨"c.jpg", some ⟨100, 100⟩, none, none, none⟩

/-- The spec's error-handling scenario: [img, corrupt, img, img]. -/
def imagesBatch : List UploadedFile := [imgFileA, badFile, imgFileB, imgFileC]

def threePagePdf : UploadedFile :=
  ⟨"doc.pdf", none, none, none, some [pageA1, pageB1, ⟨500, 500, "page three"⟩]⟩


/-- Concrete over-cap text contents for the truncation analysis: 5001 copies of
the letter a, and the same with the last character changed. -/
def t5001 : String := String.mk (List.replicate 5001 'a')

def t5001b : String := String.mk (List.replicate 5000 'a' ++ ['b'])

/-! ### Decimal rendering: semantics of `Nat.repr`

`splitPDF` stamps `Page ${i + 1} of ${pageCount}`; distinctness of the labels
reduces to injectivity of the decimal rendering of naturals, proved here from
`Nat.toDigitsCore`. -/

/-- Fuel-free decimal character rendering: what `Nat.toDigitsCore 10` computes. -/
def decChars (n : ℕ) : List Char :=
  if h : n / 10 = 0 then [Nat.digitChar (n % 10)]
  else decChars (n / 10) ++ [Nat.digitChar (n % 10)]
termination_by n
decreasing_by
  exact Nat.div_lt_self (Nat.pos_of_ne_zero (fun h0 => h (by simp [h0]))) (by norm_num)

/-- The numeric value of a decimal digit character. -/
def digitVal (c : Char) : ℕ := c.toNat - 48

/-- Value of a decimal character string, most significant digit first. -/
def decVal (l : List Char) : ℕ := l.foldl (fun a c => a * 10 + digitVal c) 0


theorem decChars_eq_of_div_eq_zero {n : ℕ} (h : n / 10 = 0) :
    decChars n = [Nat.digitChar (n % 10)] := by
  rw [decChars]
  simp [h]

theorem decChars_eq_of_div_ne_zero {n : ℕ} (h : ¬ n / 10 = 0) :
    decChars n = decChars (n / 10) ++ [Nat.digitChar (n % 10)] := by
  rw [decChars]
  simp [h]

theorem toDigitsCore_eq_decChars :
    ∀ (f n : ℕ) (ds : List Char), n < f →
      Nat.toDigitsCore 10 f n ds = decChars n ++ ds := by
  intro f
  induction f with
  | zero => intro n ds h; exact absurd h (Nat.not_lt_zero n)
  | succ f ih =>
    intro n ds h
    by_cases hd : n / 10 = 0
    · simp [Nat.toDigitsCore, hd, decChars_eq_of_div_eq_zero hd]
    · have hlt : n / 10 < f := by
        have h1 : n / 10 < n := Nat.div_lt_self (Nat.pos_of_ne_zero (fun h0 => hd (by simp [h0]))) (by norm_num)
        omega
      simp only [Nat.toDigitsCore, hd, if_false]
      rw [ih (n / 10) (Nat.digitChar (n % 10) :: ds) hlt,
        decChars_eq_of_div_ne_zero hd, List.append_assoc]
      rfl

theorem repr_data_eq (n : ℕ) : (Nat.repr n).data = decChars n := by
  show (Nat.toDigits 10 n).asString.data = decChars n
  rw [Nat.toDigits, toDigitsCore_eq_decChars (n + 1) n [] (Nat.lt_succ_self n), List.append_nil]
  rfl

theorem digitVal_digitChar {k : ℕ} (h : k < 10) : digitVal (Nat.digitChar k) = k := by
  interval_cases k <;> decide

theorem foldl_decChars (n : ℕ) :
    ∀ a : ℕ, (decChars n).foldl (fun a c => a * 10 + digitVal c) a
      = a * 10 ^ (decChars n).length + n := by
  induction n using Nat.strong_induction_on with
  | _ n ih =>
    intro a
    by_cases hd : n / 10 = 0
    · have hn : n < 10 := by omega
      rw [decChars_eq_of_div_eq_zero hd]
      simp [Nat.mod_eq_of_lt hn, digitVal_digitChar hn]
    · have hpos : 0 < n := Nat.pos_of_ne_zero (fun h0 => hd (by simp [h0]))
      have hlt : n / 10 < n := Nat.div_lt_self hpos (by norm_num)
      rw [decChars_eq_of_div_ne_zero hd, List.foldl_append, ih (n / 10) hlt a]
      simp only [List.foldl_cons, List.foldl_nil, List.length_append, List.length_singleton]
      rw [digitVal_digitChar (Nat.mod_lt n (by norm_num) : n % 10 < 10)]
      have : (a * 10 ^ (decChars (n / 10)).length + n / 10) * 10 + n % 10
          = a * 10 ^ ((decChars (n / 10)).length + 1) + (10 * (n / 10) + n % 10) := by ring
      rw [this, Nat.div_add_mod]

theorem decVal_decChars (n : ℕ) : decVal (decChars n) = n := by
  have := foldl_decChars n 0
  simpa [decVal] using this

theorem repr_injective {m n : ℕ} (h : Nat.repr m = Nat.repr n) : m = n := by
  have hd : decChars m = decChars n := by
    rw [← repr_data_eq, ← repr_data_eq, h]
  calc m = decVal (decChars m) := (decVal_decChars m).symm
    _ = decVal (decChars n) := by rw [hd]
    _ = n := decVal_decChars n

theorem pageLabel_inj {n : ℕ} : Function.Injective (fun i => pageLabel i n) := by
  intro i j h
  simp only [pageLabel] at h
  have hd := congrArg String.data h
  simp only [String.data_append] at hd
  have h2 := List.append_cancel_right (List.append_cancel_right hd)
  have h3 := List.append_cancel_left h2
  have : i + 1 = j + 1 := repr_injective (by
    apply String.ext
    exact h3)
  omega


theorem JsPdf.one_le_output_length (d : JsPdf) : 1 ≤ d.output.length := by
  simp [JsPdf.output]

theorem imagesLoop_trace (n : ℕ) (pw ph m : ℚ) :
    ∀ (files : List UploadedFile) (i : ℕ) (fp : Bool) (pdf : JsPdf),
      (imagesLoop n pw ph m files i fp pdf).2 = (List.range' i files.length).map (progAt n)
  | [], i, fp, pdf => by simp [imagesLoop]
  | f :: rest, i, fp, pdf => by
    cases hf : f.decodedImage with
    | none =>
      simp only [imagesLoop, hf, List.length_cons, List.range'_succ, List.map_cons]
      rw [imagesLoop_trace n pw ph m rest (i + 1) fp pdf]
      simp [progAt]
    | some img =>
      simp only [imagesLoop, hf, List.length_cons, List.range'_succ, List.map_cons]
      rw [imagesLoop_trace n pw ph m rest (i + 1) false _]
      simp [progAt]

theorem textLoop_trace (w : String → List String) (n : ℕ) (pw ph m lh : ℚ) :
    ∀ (files : List UploadedFile) (i : ℕ) (fp : Bool) (pdf : JsPdf),
      (textLoop w n pw ph m lh files i fp pdf).2 = (List.range' i files.length).map (progAt n)
  | [], i, fp, pdf => by simp [textLoop]
  | f :: rest, i, fp, pdf => by
    cases hf : f.textContent with
    | none =>
      simp only [textLoop, hf, List.length_cons, List.range'_succ, List.map_cons]
      rw [textLoop_trace w n pw ph m lh rest (i + 1) fp pdf]
      simp [progAt]
    | some text =>
      simp only [textLoop, hf, List.length_cons, List.range'_succ, List.map_cons]
      rw [textLoop_trace w n pw ph m lh rest (i + 1) false _]
      simp [progAt]

theorem wordLoop_trace (w : String → List String) (n : ℕ) (pw ph m lh : ℚ) :
    ∀ (files : List UploadedFile) (i : ℕ) (fp : Bool) (pdf : JsPdf),
      (wordLoop w n pw ph m lh files i fp pdf).2 = (List.range' i files.length).map (progAt n)
  | [], i, fp, pdf => by simp [wordLoop]
  | f :: rest, i, fp, pdf => by
    cases hf : f.extractedWord with
    | none =>
      simp only [wordLoop, hf, List.length_cons, List.range'_succ, List.map_cons]
      rw [wordLoop_trace w n pw ph m lh rest (i + 1) fp pdf]
      simp [progAt]
    | some text =>
      simp only [wordLoop, hf, List.length_cons, List.range'_succ, List.map_cons]
      rw [wordLoop_trace w n pw ph m lh rest (i + 1) false _]
      simp [progAt]

theorem mergeLoop_trace (n : ℕ) :
    ∀ (files : List UploadedFile) (i : ℕ),
      (mergeLoop n files i).2 = (List.range' i files.length).map (progAt n)
  | [], i => by simp [mergeLoop]
  | f :: rest, i => by
    cases hf : f.parsedPdf with
    | none =>
      simp only [mergeLoop, hf, List.length_cons, List.range'_succ, List.map_cons]
      rw [mergeLoop_trace n rest (i + 1)]
      simp [progAt]
    | some pages =>
      simp only [mergeLoop, hf, List.length_cons, List.range'_succ, List.map_cons]
      rw [mergeLoop_trace n rest (i + 1)]
      simp [progAt]

theorem splitLoop_spec (n : ℕ) :
    ∀ (pages : List PdfPage) (i : ℕ),
      splitLoop n pages i
        = ((pages.enumFrom i).map (fun x => ⟨x.2, pageLabel x.1 n, 50, x.2.height - 50⟩),
           (List.range' i pages.length).map (progAt n))
  | [], i => by simp [splitLoop]
  | p :: rest, i => by
    simp only [splitLoop, List.enumFrom, List.length_cons, List.range'_succ, List.map_cons]
    rw [splitLoop_spec n rest (i + 1)]
    simp [progAt]

theorem mergeLoop_pages (n : ℕ) :
    ∀ (files : List UploadedFile) (i : ℕ),
      (mergeLoop n files i).1 = (files.filterMap (fun f => f.parsedPdf)).flatten
  | [], i => by simp [mergeLoop]
  | f :: rest, i => by
    cases hf : f.parsedPdf with
    | none =>
      simp only [mergeLoop, hf, List.filterMap_cons]
      rw [mergeLoop_pages n rest (i + 1)]
    | some pages =>
      simp only [mergeLoop, hf, List.filterMap_cons, List.flatten_cons]
      rw [mergeLoop_pages n rest (i + 1)]

theorem convertImagesToPDF_trace (files : List UploadedFile) :
    (convertImagesToPDF files).2 = progressTrace files.length := by
  simp only [convertImagesToPDF]
  rw [imagesLoop_trace, progressTrace, List.range_eq_range']

theorem convertTextToPDF_trace (w : String → List String) (files : List UploadedFile) :
    (convertTextToPDF w files).2 = progressTrace files.length := by
  simp only [convertTextToPDF]
  rw [textLoop_trace, progressTrace, List.range_eq_range']

theorem convertWordToPDF_trace (w : String → List String) (files : List UploadedFile) :
    (convertWordToPDF w files).2 = progressTrace files.length := by
  simp only [convertWordToPDF]
  rw [wordLoop_trace, progressTrace, List.range_eq_range']

theorem mergePDFs_trace (files : List UploadedFile) :
    (mergePDFs files).2 = progressTrace files.length := by
  simp only [mergePDFs]
  rw [mergeLoop_trace, progressTrace, List.range_eq_range']


theorem imagesLoop_pdf_false (n : ℕ) (pw ph m : ℚ) :
    ∀ (files : List UploadedFile) (i : ℕ) (pdf : JsPdf),
      (imagesLoop n pw ph m files i false pdf).1.output
        = pdf.output ++ files.filterMap (fun f => f.decodedImage.map (imagePage pw ph m f))
  | [], i, pdf => by simp [imagesLoop]
  | f :: rest, i, pdf => by
    cases hf : f.decodedImage with
    | none =>
      simp only [imagesLoop, hf, List.filterMap_cons]
      rw [imagesLoop_pdf_false n pw ph m rest (i + 1) pdf]
      simp
    | some img =>
      simp only [imagesLoop, hf]
      rw [imagesLoop_pdf_false n pw ph m rest (i + 1) _]
      simp [JsPdf.output, JsPdf.draw, JsPdf.addPage, imagePage, List.filterMap_cons, hf]

theorem imagesLoop_pdf_true (n : ℕ) (pw ph m : ℚ) :
    ∀ (files : List UploadedFile) (i : ℕ) (pdf : JsPdf), pdf.cur = [] →
      (∃ f ∈ files, f.decodedImage.isSome) →
      (imagesLoop n pw ph m files i true pdf).1.output
        = pdf.donePages ++ files.filterMap (fun f => f.decodedImage.map (imagePage pw ph m f))
  | [], i, pdf, hcur, hex => by simp at hex
  | f :: rest, i, pdf, hcur, hex => by
    cases hf : f.decodedImage with
    | none =>
      have hex2 : ∃ g ∈ rest, g.decodedImage.isSome := by
        obtain ⟨g, hg, hgs⟩ := hex
        rcases List.mem_cons.mp hg with h | h
        · subst h; rw [hf] at hgs; simp at hgs
        · exact ⟨g, h, hgs⟩
      simp only [imagesLoop, hf, List.filterMap_cons, Option.map_none']
      exact imagesLoop_pdf_true n pw ph m rest (i + 1) pdf hcur hex2
    | some img =>
      simp only [imagesLoop, hf]
      rw [imagesLoop_pdf_false n pw ph m rest (i + 1) _]
      simp [JsPdf.output, JsPdf.draw, hcur, imagePage, List.filterMap_cons, hf]

theorem imagesLoop_pdf_ext (pw ph m : ℚ) :
    ∀ (files : List UploadedFile) (n i n2 i2 : ℕ) (fp : Bool) (pdf : JsPdf),
      (imagesLoop n pw ph m files i fp pdf).1 = (imagesLoop n2 pw ph m files i2 fp pdf).1
  | [], n, i, n2, i2, fp, pdf => rfl
  | f :: rest, n, i, n2, i2, fp, pdf => by
    cases hf : f.decodedImage with
    | none =>
      simp only [imagesLoop, hf]
      exact imagesLoop_pdf_ext pw ph m rest n (i + 1) n2 (i2 + 1) fp pdf
    | some img =>
      simp only [imagesLoop, hf]
      exact imagesLoop_pdf_ext pw ph m rest n (i + 1) n2 (i2 + 1) false _

theorem imagesLoop_skip (pw ph m : ℚ) (f : UploadedFile) (hf : f.decodedImage = none)
    (post : List UploadedFile) :
    ∀ (pre : List UploadedFile) (n i n2 i2 : ℕ) (fp : Bool) (pdf : JsPdf),
      (imagesLoop n pw ph m (pre ++ f :: post) i fp pdf).1
        = (imagesLoop n2 pw ph m (pre ++ post) i2 fp pdf).1
  | [], n, i, n2, i2, fp, pdf => by
    simp only [List.nil_append, imagesLoop, hf]
    exact imagesLoop_pdf_ext pw ph m post n (i + 1) n2 i2 fp pdf
  | g :: pre, n, i, n2, i2, fp, pdf => by
    cases hg : g.decodedImage with
    | none =>
      simp only [List.cons_append, imagesLoop, hg]
      exact imagesLoop_skip pw ph m f hf post pre n (i + 1) n2 (i2 + 1) fp pdf
    | some img =>
      simp only [List.cons_append, imagesLoop, hg]
      exact imagesLoop_skip pw ph m f hf post pre n (i + 1) n2 (i2 + 1) false _


theorem textLoop_pdf_ext (w : String → List String) (pw ph m lh : ℚ) :
    ∀ (files : List UploadedFile) (n i n2 i2 : ℕ) (fp : Bool) (pdf : JsPdf),
      (textLoop w n pw ph m lh files i fp pdf).1 = (textLoop w n2 pw ph m lh files i2 fp pdf).1
  | [], n, i, n2, i2, fp, pdf => rfl
  | f :: rest, n, i, n2, i2, fp, pdf => by
    cases hf : f.textContent with
    | none =>
      simp only [textLoop, hf]
      exact textLoop_pdf_ext w pw ph m lh rest n (i + 1) n2 (i2 + 1) fp pdf
    | some text =>
      simp only [textLoop, hf]
      exact textLoop_pdf_ext w pw ph m lh rest n (i + 1) n2 (i2 + 1) false _

theorem textLoop_skip (w : String → List String) (pw ph m lh : ℚ) (f : UploadedFile)
    (hf : f.textContent = none) (post : List UploadedFile) :
    ∀ (pre : List UploadedFile) (n i n2 i2 : ℕ) (fp : Bool) (pdf : JsPdf),
      (textLoop w n pw ph m lh (pre ++ f :: post) i fp pdf).1
        = (textLoop w n2 pw ph m lh (pre ++ post) i2 fp pdf).1
  | [], n, i, n2, i2, fp, pdf => by
    simp only [List.nil_append, textLoop, hf]
    exact textLoop_pdf_ext w pw ph m lh post n (i + 1) n2 i2 fp pdf
  | g :: pre, n, i, n2, i2, fp, pdf => by
    cases hg : g.textContent with
    | none =>
      simp only [List.cons_append, textLoop, hg]
      exact textLoop_skip w pw ph m lh f hf post pre n (i + 1) n2 (i2 + 1) fp pdf
    | some text =>
      simp only [List.cons_append, textLoop, hg]
      exact textLoop_skip w pw ph m lh f hf post pre n (i + 1) n2 (i2 + 1) false _

theorem wordLoop_pdf_ext (w : String → List String) (pw ph m lh : ℚ) :
    ∀ (files : List UploadedFile) (n i n2 i2 : ℕ) (fp : Bool) (pdf : JsPdf),
      (wordLoop w n pw ph m lh files i fp pdf).1 = (wordLoop w n2 pw ph m lh files i2 fp pdf).1
  | [], n, i, n2, i2, fp, pdf => rfl
  | f :: rest, n, i, n2, i2, fp, pdf => by
    cases hf : f.extractedWord with
    | none =>
      simp only [wordLoop, hf]
      exact wordLoop_pdf_ext w pw ph m lh rest n (i + 1) n2 (i2 + 1) fp pdf
    | some text =>
      simp only [wordLoop, hf]
      exact wordLoop_pdf_ext w pw ph m lh rest n (i + 1) n2 (i2 + 1) false _

theorem wordLoop_skip (w : String → List String) (pw ph m lh : ℚ) (f : UploadedFile)
    (hf : f.extractedWord = none) (post : List UploadedFile) :
    ∀ (pre : List UploadedFile) (n i n2 i2 : ℕ) (fp : Bool) (pdf : JsPdf),
      (wordLoop w n pw ph m lh (pre ++ f :: post) i fp pdf).1
        = (wordLoop w n2 pw ph m lh (pre ++ post) i2 fp pdf).1
  | [], n, i, n2, i2, fp, pdf => by
    simp only [List.nil_append, wordLoop, hf]
    exact wordLoop_pdf_ext w pw ph m lh post n (i + 1) n2 i2 fp pdf
  | g :: pre, n, i, n2, i2, fp, pdf => by
    cases hg : g.extractedWord with
    | none =>
      simp only [List.cons_append, wordLoop, hg]
      exact wordLoop_skip w pw ph m lh f hf post pre n (i + 1) n2 (i2 + 1) fp pdf
    | some text =>
      simp only [List.cons_append, wordLoop, hg]
      exact wordLoop_skip w pw ph m lh f hf post pre n (i + 1) n2 (i2 + 1) false _

theorem progAt_bounds (n i : ℕ) (hi : i < n) : 0 ≤ progAt n i ∧ progAt n i ≤ 100 := by
  have hn : (0 : ℚ) < n := by
    have : 0 < n := Nat.lt_of_le_of_lt (Nat.zero_le i) hi
    exact_mod_cast this
  unfold progAt
  constructor
  · positivity
  · have h1 : (i : ℚ) / (n : ℚ) ≤ 1 := by
      rw [div_le_one hn]
      exact_mod_cast le_of_lt hi
    nlinarith

theorem progAt_mono (n : ℕ) {i j : ℕ} (hij : i ≤ j) : progAt n i ≤ progAt n j := by
  unfold progAt
  by_cases hn : (n : ℚ) = 0
  · simp [hn]
  · have hn0 : (0 : ℚ) < n := lt_of_le_of_ne (by positivity) (Ne.symm hn)
    have hij2 : (i : ℚ) ≤ (j : ℚ) := by exact_mod_cast hij
    gcongr

theorem progressTrace_ok (n : ℕ) : progressOk (progressTrace n) := by
  refine ⟨?_, ?_, ?_⟩
  · intro x hx
    rcases List.mem_append.mp hx with h | h
    · obtain ⟨i, hi, rfl⟩ := List.mem_map.mp h
      exact progAt_bounds n i (List.mem_range.mp hi)
    · simp only [List.mem_singleton] at h
      subst h
      norm_num
  · rw [progressTrace, List.chain'_iff_pairwise, List.pairwise_append]
    refine ⟨?_, ?_, ?_⟩
    · rw [List.pairwise_map]
      exact (List.pairwise_lt_range n).imp (fun hij => progAt_mono n (le_of_lt hij))
    · simp
    · intro a ha b hb
      obtain ⟨i, hi, rfl⟩ := List.mem_map.mp ha
      simp only [List.mem_singleton] at hb
      subst hb
      exact (progAt_bounds n i (List.mem_range.mp hi)).2
  · exact List.getLast?_concat _

theorem progressTrace_getLast (n : ℕ) : (progressTrace n).getLast? = some 100 :=
  List.getLast?_concat _


/-- Claim C1 (confirmed): for positive source dimensions, nonnegative margin and
page dimensions exceeding twice the margin, the computed placement preserves the
source aspect ratio exactly (finalWidth / finalHeight = sourceWidth / sourceHeight),
fits inside the drawable area (finalWidth ≤ pageWidth - 2·margin,
finalHeight ≤ pageHeight - 2·margin), and the centered origins are nonnegative. -/
theorem layout_fit_correct (sw sh pw ph m : ℚ) (hsw : 0 < sw) (hsh : 0 < sh)
    (hm : 0 ≤ m) (hw : 2 * m < pw) (hh : 2 * m < ph) :
    (fit sw sh pw ph m).finalWidth / (fit sw sh pw ph m).finalHeight = sw / sh ∧
    (fit sw sh pw ph m).finalWidth ≤ pw - 2 * m ∧
    (fit sw sh pw ph m).finalHeight ≤ ph - 2 * m ∧
    0 ≤ (fit sw sh pw ph m).x ∧ 0 ≤ (fit sw sh pw ph m).y := by
  have ha : 0 < sw / sh := div_pos hsw hsh
  have hdw : 0 < pw - 2 * m := by linarith
  have hdh : 0 < ph - 2 * m := by linarith
  simp only [fit, fitWH]
  split_ifs with hif
  · have hfh : (pw - 2 * m) / (sw / sh) ≤ ph - 2 * m := by
      rw [div_le_iff₀ ha]
      have := (div_lt_iff₀ hdh).mp hif
      linarith
    refine ⟨?_, le_refl _, hfh, ?_, ?_⟩
    · rw [div_div_eq_mul_div, mul_comm, mul_div_assoc, div_self (ne_of_gt hdw), mul_one]
    · simp only
      linarith
    · simp only
      linarith
  · push_neg at hif
    have hfw : (ph - 2 * m) * (sw / sh) ≤ pw - 2 * m := by
      have h2 := mul_le_mul_of_nonneg_left hif (le_of_lt hdh)
      rwa [mul_div_cancel₀ _ (ne_of_gt hdh)] at h2
    refine ⟨?_, hfw, le_refl _, ?_, ?_⟩
    · rw [mul_comm, mul_div_assoc, div_self (ne_of_gt hdh), mul_one]
    · simp only
      linarith
    · simp only
      linarith

theorem layout_fit_correct_witness :
    ((0 : ℚ) < 4 ∧ (0 : ℚ) < 3 ∧ (0 : ℚ) ≤ 10 ∧ (2 : ℚ) * 10 < 210 ∧ (2 : ℚ) * 10 < 297) ∧
    (fit 4 3 210 297 10).finalWidth / (fit 4 3 210 297 10).finalHeight = 4 / 3 ∧
    (fit 4 3 210 297 10).finalWidth ≤ 210 - 2 * 10 ∧
    (fit 4 3 210 297 10).finalHeight ≤ 297 - 2 * 10 ∧
    0 ≤ (fit 4 3 210 297 10).x ∧ 0 ≤ (fit 4 3 210 297 10).y :=
  ⟨by norm_num,
   layout_fit_correct 4 3 210 297 10 (by norm_num) (by norm_num) (by norm_num)
     (by norm_num) (by norm_num)⟩

/-- Claim C4 (confirmed): for a batch of parseable PDF inputs, mergePDFs outputs
the concatenation, in batch order, of each input's pages in their original
internal order, each page copied as a value (dimensions and content preserved).
The two-single-page-input instance is the witness below. -/
theorem merge_concat (files : List UploadedFile) (h : ∀ f ∈ files, f.parsedPdf.isSome) :
    (mergePDFs files).1 = (files.filterMap (fun f => f.parsedPdf)).flatten := by
  simp only [mergePDFs]
  exact mergeLoop_pages files.length files 0

/-- Claim C10 (confirmed): splitPDF reads only the first item of the batch; any
batch with the same first item produces the identical result, so items at
positions 2 and beyond are silently ignored, never rejected. -/
theorem split_first_item_only (f : UploadedFile) (rest : List UploadedFile) :
    splitPDF (f :: rest) = splitPDF [f] := rfl



theorem merge_concat_witness :
    (∀ f ∈ mergeBatch, f.parsedPdf.isSome) ∧
    (mergePDFs mergeBatch).1 = [pageA1, pageB1] := by
  refine ⟨by decide, ?_⟩
  rw [merge_concat mergeBatch (by decide)]
  rfl

/-- Claim C9 counterexample: a merge batch whose single item fails to parse
returns a finalized document with zero pages, refuting page count ≥ 1 for
every returned output. -/
theorem merge_zero_pages_counterexample :
    (mergePDFs [badFile]).1 = [] ∧ (mergePDFs [badFile]).1.length = 0 := ⟨rfl, rfl⟩

/-- Claim C9 (amended): the jsPDF-based strategies (images, text, word, and the
placeholder) always return at least one page, because jsPDF starts with a blank
page; mergePDFs instead returns exactly the total page count of the items that
parsed, which is zero when every item fails. -/
theorem finalized_page_count (w : String → List String) (files : List UploadedFile) :
    1 ≤ (convertImagesToPDF files).1.output.length ∧
    1 ≤ (convertTextToPDF w files).1.output.length ∧
    1 ≤ (convertWordToPDF w files).1.output.length ∧
    1 ≤ placeholderPdf.output.length ∧
    (mergePDFs files).1.length
      = ((files.filterMap (fun f => f.parsedPdf)).map List.length).sum := by
  refine ⟨JsPdf.one_le_output_length _, JsPdf.one_le_output_length _,
    JsPdf.one_le_output_length _, JsPdf.one_le_output_length _, ?_⟩
  simp only [mergePDFs]
  rw [mergeLoop_pages files.length files 0, List.length_flatten]

/-- Claim C6 counterexample: dispatching images-to-pdf on a zero-item batch is
not rejected: it returns Except.ok, and the returned document contains one
(blank) page, so a page was created. -/
theorem empty_batch_counterexample :
    convertByFeature wrapId "images-to-pdf" [] = Except.ok (ConvOutput.jsDoc JsPdf.new, [100]) ∧
    JsPdf.new.output.length = 1 := ⟨rfl, rfl⟩

/-- Claim C6 (amended): only the split-pdf feature rejects a zero-item batch
(with the error of line 188, before any page is touched); every other feature
identifier accepts the empty batch and returns a document: one blank page for
the jsPDF-based strategies, zero pages for merge. -/
theorem empty_batch_policy :
    splitPDF ([] : List UploadedFile) = Except.error "No PDF file provided" ∧
    (∀ (w : String → List String) (fid : String), fid ≠ "split-pdf" →
      ∃ out tr, convertByFeature w fid [] = Except.ok (out, tr)) ∧
    (∀ w : String → List String,
      convertByFeature w "images-to-pdf" [] = Except.ok (ConvOutput.jsDoc JsPdf.new, [100])) ∧
    (∀ w : String → List String,
      convertByFeature w "merge-pdfs" [] = Except.ok (ConvOutput.libDoc [], [100])) ∧
    JsPdf.new.output.length = 1 := by
  refine ⟨rfl, ?_, fun w => rfl, fun w => rfl, rfl⟩
  intro w fid hfid
  by_cases h1 : fid = "images-to-pdf"
  · subst h1; exact ⟨_, _, rfl⟩
  by_cases h2 : fid = "text-to-pdf"
  · subst h2; exact ⟨_, _, rfl⟩
  by_cases h3 : fid = "merge-pdfs"
  · subst h3; exact ⟨_, _, rfl⟩
  by_cases h5 : fid = "word-to-pdf"
  · subst h5; exact ⟨_, _, rfl⟩
  refine ⟨ConvOutput.jsDoc placeholderPdf, [100], ?_⟩
  simp only [convertByFeature]
  rw [if_neg h1, if_neg h2, if_neg h3, if_neg hfid, if_neg h5]

theorem empty_batch_policy_witness :
    ("text-to-pdf" : String) ≠ "split-pdf" ∧
    ∃ out tr, convertByFeature wrapId "text-to-pdf" [] = Except.ok (out, tr) :=
  ⟨by decide, empty_batch_policy.2.1 wrapId "text-to-pdf" (by decide)⟩

/-- Claim C7 counterexample: in splitPDF the first item's parse failure is not
caught (PDFDocument.load at line 193 is outside any try/catch): the call rejects
instead of returning a best-effort document. -/
theorem split_parse_failure_propagates :
    splitPDF [badFile] = Except.error "Failed to load PDF" := rfl


/-- Claim C7 (amended): in the images, text, word and merge strategies a
per-item decode/parse failure is caught where it occurs, the item is skipped and
the batch continues, producing the same document as if the item were absent; in
splitPDF, however, a parse failure of the (only processed) first item propagates
and aborts the call. -/
theorem per_item_failure_policy :
    (∀ (pre post : List UploadedFile) (f : UploadedFile), f.decodedImage = none →
      (convertImagesToPDF (pre ++ f :: post)).1 = (convertImagesToPDF (pre ++ post)).1) ∧
    (∀ (w : String → List String) (pre post : List UploadedFile) (f : UploadedFile),
      f.textContent = none →
      (convertTextToPDF w (pre ++ f :: post)).1 = (convertTextToPDF w (pre ++ post)).1) ∧
    (∀ (w : String → List String) (pre post : List UploadedFile) (f : UploadedFile),
      f.extractedWord = none →
      (convertWordToPDF w (pre ++ f :: post)).1 = (convertWordToPDF w (pre ++ post)).1) ∧
    (∀ (pre post : List UploadedFile) (f : UploadedFile), f.parsedPdf = none →
      (mergePDFs (pre ++ f :: post)).1 = (mergePDFs (pre ++ post)).1) ∧
    (∀ (f : UploadedFile) (rest : List UploadedFile), f.parsedPdf = none →
      splitPDF (f :: rest) = Except.error "Failed to load PDF") := by
  refine ⟨?_, ?_, ?_, ?_, ?_⟩
  · intro pre post f hf
    simp only [convertImagesToPDF]
    exact imagesLoop_skip 210 297 10 f hf post pre _ 0 _ 0 true JsPdf.new
  · intro w pre post f hf
    simp only [convertTextToPDF]
    exact textLoop_skip w 210 297 20 6 f hf post pre _ 0 _ 0 true JsPdf.new
  · intro w pre post f hf
    simp only [convertWordToPDF]
    exact wordLoop_skip w 210 297 20 6 f hf post pre _ 0 _ 0 true JsPdf.new
  · intro pre post f hf
    simp only [mergePDFs]
    rw [mergeLoop_pages, mergeLoop_pages]
    simp [List.filterMap_append, List.filterMap_cons, hf]
  · intro f rest hf
    simp only [splitPDF, hf]

theorem per_item_failure_policy_witness :
    badFile.decodedImage = none ∧
    (convertImagesToPDF (([pdfFileA] : List UploadedFile) ++ badFile :: [pdfFileB])).1
      = (convertImagesToPDF ([pdfFileA] ++ [pdfFileB])).1 :=
  ⟨rfl, per_item_failure_policy.1 [pdfFileA] [pdfFileB] badFile rfl⟩

/-- Claim C2 (confirmed): for every strategy call on a batch of at least one
item, the progress values form a sequence inside [0, 100] that is monotonically
non-decreasing and ends in exactly 100; for splitPDF this holds for every call
that returns a document. -/
theorem progress_contract (w : String → List String) (files : List UploadedFile)
    (hn : 1 ≤ files.length) :
    progressOk (convertImagesToPDF files).2 ∧
    progressOk (convertTextToPDF w files).2 ∧
    progressOk (mergePDFs files).2 ∧
    progressOk (convertWordToPDF w files).2 ∧
    (∀ r, splitPDF files = Except.ok r → progressOk r.2) := by
  refine ⟨?_, ?_, ?_, ?_, ?_⟩
  · rw [convertImagesToPDF_trace]; exact progressTrace_ok _
  · rw [convertTextToPDF_trace]; exact progressTrace_ok _
  · rw [mergePDFs_trace]; exact progressTrace_ok _
  · rw [convertWordToPDF_trace]; exact progressTrace_ok _
  · intro r hr
    cases files with
    | nil => simp [splitPDF] at hr
    | cons f rest =>
      cases hp : f.parsedPdf with
      | none => simp [splitPDF, hp] at hr
      | some pages =>
        simp only [splitPDF, hp] at hr
        injection hr with hr2
        subst hr2
        simp only
        rw [splitLoop_spec pages.length pages 0]
        simp only
        rw [← List.range_eq_range', ← progressTrace]
        exact progressTrace_ok _

theorem progress_contract_witness :
    1 ≤ ([pdfFileA] : List UploadedFile).length ∧
    progressOk (convertImagesToPDF [pdfFileA]).2 :=
  ⟨by decide, (progress_contract wrapId [pdfFileA] (by decide)).1⟩


theorem length_filterMap_decoded (g : UploadedFile → ImgData → List DrawCmd) :
    ∀ files : List UploadedFile,
      (files.filterMap (fun f => f.decodedImage.map (g f))).length
        = (files.filter (fun f => f.decodedImage.isSome)).length
  | [] => rfl
  | f :: rest => by
    cases hf : f.decodedImage with
    | none =>
      simp only [List.filterMap_cons, List.filter_cons, hf]
      simpa using length_filterMap_decoded g rest
    | some img =>
      simp only [List.filterMap_cons, List.filter_cons, hf]
      simpa using length_filterMap_decoded g rest

/-- Claim C3 (confirmed): on a batch in which some items decode and others
fail, convertImagesToPDF returns (never throws: the dispatcher arm is Except.ok)
a document with exactly one page per successfully decoded item, in batch order
with no blank page where a failed item was, and the final progress value is 100. -/
theorem images_partial_failure (w : String → List String) (files : List UploadedFile)
    (hs : ∃ f ∈ files, f.decodedImage.isSome) (hf : ∃ f ∈ files, f.decodedImage = none) :
    convertByFeature w "images-to-pdf" files
      = Except.ok (ConvOutput.jsDoc (convertImagesToPDF files).1, (convertImagesToPDF files).2) ∧
    (convertImagesToPDF files).1.output
      = files.filterMap (fun f => f.decodedImage.map (imagePage 210 297 10 f)) ∧
    (convertImagesToPDF files).1.output.length
      = (files.filter (fun f => f.decodedImage.isSome)).length ∧
    (convertImagesToPDF files).2.getLast? = some 100 := by
  have hout : (convertImagesToPDF files).1.output
      = files.filterMap (fun f => f.decodedImage.map (imagePage 210 297 10 f)) := by
    simp only [convertImagesToPDF]
    rw [imagesLoop_pdf_true files.length 210 297 10 files 0 JsPdf.new rfl hs]
    rfl
  refine ⟨rfl, hout, ?_, ?_⟩
  · rw [hout]
    exact length_filterMap_decoded _ files
  · rw [convertImagesToPDF_trace]
    exact progressTrace_getLast _


theorem images_partial_failure_witness :
    (∃ f ∈ imagesBatch, f.decodedImage.isSome) ∧
    (∃ f ∈ imagesBatch, f.decodedImage = none) ∧
    (convertImagesToPDF imagesBatch).1.output.length
      = (imagesBatch.filter (fun f => f.decodedImage.isSome)).length :=
  ⟨by decide, by decide,
   (images_partial_failure wrapId imagesBatch (by decide) (by decide)).2.2.1⟩

/-- Claim C5 (confirmed): on a single-item batch whose item parses to an N-page
PDF, splitPDF returns N pages where the i-th output page is a copy of the i-th
source page bearing the label "Page i of N", and all N labels are distinct. -/
theorem split_pages (f : UploadedFile) (rest : List UploadedFile) (pages : List PdfPage)
    (h : f.parsedPdf = some pages) :
    splitPDF (f :: rest)
      = Except.ok (pages.enum.map
          (fun x => (⟨x.2, pageLabel x.1 pages.length, 50, x.2.height - 50⟩ : StampedPage)),
        progressTrace pages.length) ∧
    ((pages.enum.map
        (fun x => (⟨x.2, pageLabel x.1 pages.length, 50, x.2.height - 50⟩ : StampedPage))).map
      StampedPage.label).Nodup ∧
    (pages.enum.map
        (fun x => (⟨x.2, pageLabel x.1 pages.length, 50, x.2.height - 50⟩ : StampedPage))).length
      = pages.length := by
  refine ⟨?_, ?_, by simp⟩
  · simp only [splitPDF, h]
    rw [splitLoop_spec pages.length pages 0]
    rw [← List.range_eq_range', ← progressTrace]
    rfl
  · rw [List.map_map]
    have hmm : (StampedPage.label ∘ fun x : ℕ × PdfPage =>
        (⟨x.2, pageLabel x.1 pages.length, 50, x.2.height - 50⟩ : StampedPage))
        = (fun i => pageLabel i pages.length) ∘ Prod.fst := rfl
    rw [hmm, ← List.map_map, List.enum_map_fst]
    exact (List.nodup_range _).map pageLabel_inj


theorem split_pages_witness :
    threePagePdf.parsedPdf = some [pageA1, pageB1, ⟨500, 500, "page three"⟩] ∧
    splitPDF [threePagePdf]
      = Except.ok ([⟨pageA1, "Page 1 of 3", 50, pageA1.height - 50⟩,
          ⟨pageB1, "Page 2 of 3", 50, pageB1.height - 50⟩,
          ⟨⟨500, 500, "page three"⟩, "Page 3 of 3", 50, (500 : ℚ) - 50⟩],
        progressTrace 3) := by
  refine ⟨rfl, ?_⟩
  rw [(split_pages threePagePdf [] [pageA1, pageB1, ⟨500, 500, "page three"⟩] rfl).1]
  rfl


/-- Claim C8 (amended): the Word strategy hands the wrapper only the first 5000
characters of the extracted text (line 279), with no truncation marker appended;
the text strategy hands the wrapper the whole text, applying no cap at all. -/
theorem truncation_policy (w : String → List String) (nm t : String) :
    (convertWordToPDF w [⟨nm, none, none, some t, none⟩]).1
      = renderLines 297 20 6 10 (w (t.take 5000)) 45
          ((JsPdf.new.draw (DrawCmd.text nm 20 30 16)).draw (DrawCmd.line 20 35 190 35)) ∧
    (convertTextToPDF w [⟨nm, none, some t, none, none⟩]).1
      = renderLines 297 20 6 10 (w t) 45
          ((JsPdf.new.draw (DrawCmd.text nm 20 30 16)).draw (DrawCmd.line 20 35 190 35)) := by
  constructor <;> norm_num [convertWordToPDF, convertTextToPDF, wordLoop, textLoop]


theorem t5001_ne : t5001 ≠ t5001b := by
  intro he
  have hd := congrArg String.data he
  simp only [t5001, t5001b] at hd
  have h1 : (5001 : ℕ) = 5000 + 1 := by norm_num
  rw [h1, List.replicate_succ'] at hd
  have hlast := congrArg List.getLast? hd
  rw [List.getLast?_concat, List.getLast?_concat] at hlast
  exact absurd (Option.some.inj hlast) (by decide)

/-- Claim C8 counterexample: two text inputs that both exceed the 5000-character
cap and agree on their first 5000 characters render to different documents, so
the text strategy's rendered content is not the capped prefix (with any fixed
marker appended): it renders the full, untruncated text. -/
theorem text_no_truncation_counterexample :
    t5001.take 5000 = t5001b.take 5000 ∧
    5000 < t5001.length ∧ 5000 < t5001b.length ∧
    (convertTextToPDF wrapId [⟨"f.txt", none, some t5001, none, none⟩]).1
      ≠ (convertTextToPDF wrapId [⟨"f.txt", none, some t5001b, none, none⟩]).1 := by
  refine ⟨?_, ?_, ?_, ?_⟩
  · rw [String.take_eq, String.take_eq]
    have h1 : (List.replicate 5001 'a').take 5000 = List.replicate 5000 'a' := by
      rw [List.take_replicate]
      norm_num
    have h2 : (List.replicate 5000 'a' ++ ['b']).take 5000 = List.replicate 5000 'a' := by
      rw [List.take_append_of_le_length (by norm_num)]
      rw [List.take_replicate]
      norm_num
    show String.mk ((List.replicate 5001 'a').take 5000)
        = String.mk ((List.replicate 5000 'a' ++ ['b']).take 5000)
    rw [h1, h2]
  · have h : t5001.length = (List.replicate 5001 'a').length := rfl
    rw [h, List.length_replicate]
    norm_num
  · have h : t5001b.length = (List.replicate 5000 'a' ++ ['b']).length := rfl
    rw [h, List.length_append, List.length_replicate]
    norm_num
  · intro h
    have e1 : (convertTextToPDF wrapId [⟨"f.txt", none, some t5001, none, none⟩]).1
        = ⟨[], [DrawCmd.text "f.txt" 20 30 16, DrawCmd.line 20 35 190 35,
            DrawCmd.text t5001 20 45 10]⟩ := by
      norm_num [convertTextToPDF, textLoop, renderLines, wrapId, JsPdf.draw, JsPdf.addPage,
        JsPdf.new]
    have e2 : (convertTextToPDF wrapId [⟨"f.txt", none, some t5001b, none, none⟩]).1
        = ⟨[], [DrawCmd.text "f.txt" 20 30 16, DrawCmd.line 20 35 190 35,
            DrawCmd.text t5001b 20 45 10]⟩ := by
      norm_num [convertTextToPDF, textLoop, renderLines, wrapId, JsPdf.draw, JsPdf.addPage,
        JsPdf.new]
    rw [e1, e2] at h
    simp only [JsPdf.mk.injEq, List.cons.injEq, DrawCmd.text.injEq] at h
    exact t5001_ne h.2.2.2.1.1

end PdfWizard
